import Mathlib

/-!
Verification of the guild-scoped ticket bot (`bot.py`).

The development shallowly embeds the bot's persistent store (two JSON
files keyed by guild id), its ticket lifecycle operations
(`TicketModal.on_submit`, `slash_close`, `wipeticketstatus`,
`slash_reset`, `slash_setup`) and the reset confirmation view, and
proves or refutes the specification's claims about them.
-/

set_option autoImplicit false

namespace TicketBot

/-- JSON values, the data stored in the two backing files. -/
inductive Json where
  | null : Json
  | bool (b : Bool) : Json
  | num (n : Int) : Json
  | str (s : String) : Json
  | arr (elems : List Json) : Json
  | obj (entries : List (String × Json)) : Json


/-- Whether a JSON value is an object, Python's `isinstance(x, dict)`. -/
def Json.isObj : Json → Bool
  | .obj _ => true
  | _ => false

/-- Lookup in a Python dict modelled as an association list: `d.get(k)`. -/
def dget {α : Type} (d : List (String × α)) (k : String) : Option α :=
  match d with
  | [] => none
  | (k0, v0) :: rest => if k0 = k then some v0 else dget rest k

/-- Python `d[k] = v`: replace the first binding of `k`, or append a new one. -/
def dset {α : Type} (d : List (String × α)) (k : String) (v : α) : List (String × α) :=
  match d with
  | [] => [(k, v)]
  | (k0, v0) :: rest => if k0 = k then (k, v) :: rest else (k0, v0) :: dset rest k v

/-- Python `d.pop(k, None)`: drop the first binding of `k`, if any. -/
def dpop {α : Type} (d : List (String × α)) (k : String) : List (String × α) :=
  match d with
  | [] => []
  | (k0, v0) :: rest => if k0 = k then rest else (k0, v0) :: dpop rest k

/-- State of one backing JSON file as visible to `safe_load`: absent,
present but not valid JSON, or present with a parsed value. -/
inductive FileContent where
  | missing : FileContent
  | unparseable : FileContent
  | parsed (j : Json) : FileContent


/-- Embeds `safe_load(path, default)`: a missing file is first created
holding `default`; unparseable content yields `default`; otherwise the
parsed value is returned. Returns the value together with the file state
after the call. -/
def safe_load (file : FileContent) (default : Json) : Json × FileContent :=
  match file with
  | .missing => (default, .parsed default)
  | .unparseable => (default, .unparseable)
  | .parsed j => (j, .parsed j)

/-- Embeds `safe_save(path, data)`: the file now holds `data`. -/
def safe_save (data : Json) : FileContent :=
  .parsed data

/-- Embeds `get_config(guild_id)`: `safe_load` the config file and call
`.get(str(guild_id), \x7b\x7d)` on the result.  When the top-level value is not
a dict the attribute access raises, modelled by `Except.error`. -/
def get_config_file (file : FileContent) (gid : String) : Except String Json × FileContent :=
  let (data, file1) := safe_load file (.obj [])
  match data with
  | .obj d => (.ok ((dget d gid).getD (.obj [])), file1)
  | _ => (.error "AttributeError: .get on non-dict", file1)

/-- Embeds `set_config(guild_id, cfg)`: read-modify-write of the whole
config file.  Item assignment on a non-dict top level raises. -/
def set_config_file (file : FileContent) (gid : String) (cfg : Json) :
    Except String FileContent :=
  let (data, _) := safe_load file (.obj [])
  match data with
  | .obj d => .ok (safe_save (.obj (dset d gid cfg)))
  | _ => .error "TypeError: item assignment on non-dict"

/-- Embeds `get_tickets(guild_id)`: non-dict top level is replaced by an
empty dict, and a missing or non-dict guild entry is created as an empty
dict and persisted before being returned.  Never raises. -/
def get_tickets_file (file : FileContent) (gid : String) : Json × FileContent :=
  let (data0, file1) := safe_load file (.obj [])
  let d := match data0 with
    | .obj d => d
    | _ => []
  match dget d gid with
  | some v =>
    if v.isObj then (v, file1)
    else (.obj [], safe_save (.obj (dset d gid (.obj []))))
  | none => (.obj [], safe_save (.obj (dset d gid (.obj []))))

/-- Embeds `save_tickets(guild_id, tickets)`: read-modify-write of the
whole tickets file, with the `isinstance` guard on the top level. -/
def save_tickets_file (file : FileContent) (gid : String) (tickets : Json) : FileContent :=
  let (data0, _) := safe_load file (.obj [])
  let d := match data0 with
    | .obj d => d
    | _ => []
  safe_save (.obj (dset d gid tickets))

/-- The whole persistent store: the two backing files
(`config.json`, `tickets.json`). -/
structure Store where
  configFile : FileContent
  ticketsFile : FileContent


/-- `set_config` acting on the whole store. -/
def Store.set_config (s : Store) (gid : String) (cfg : Json) : Except String Store :=
  match set_config_file s.configFile gid cfg with
  | .ok f => .ok { s with configFile := f }
  | .error e => .error e

/-- `save_tickets` acting on the whole store. -/
def Store.save_tickets (s : Store) (gid : String) (tickets : Json) : Store :=
  { s with ticketsFile := save_tickets_file s.ticketsFile gid tickets }

/-- The guild entry visible in a file state: defined when the file parses
to an object holding the key. -/
def FileContent.entry (f : FileContent) (gid : String) : Option Json :=
  match f with
  | .parsed (.obj d) => dget d gid
  | _ => none

/-- The character for a decimal digit, as Python prints it. -/
def digitChar (d : Nat) : Char := Char.ofNat (48 + d)

/-- Digits of `n` in base 10, most significant first, empty for 0.
`fuel` bounds the recursion depth; `fuel = n` is always enough. -/
def natToChars (fuel n : Nat) : List Char :=
  match fuel, n with
  | 0, _ => []
  | _ + 1, 0 => []
  | fuel + 1, n + 1 => natToChars fuel ((n + 1) / 10) ++ [digitChar ((n + 1) % 10)]

/-- Python `str(n)` for a natural number. -/
def natStr (n : Nat) : String :=
  if n = 0 then "0" else ⟨natToChars n n⟩

/-- Python format `\x7bn:02d\x7d` (used by `strftime` for `%m`, `%d`). -/
def pad2 (n : Nat) : String :=
  if n < 10 then "0" ++ natStr n else natStr n

/-- Python format `\x7bn:03d\x7d`, the ticket sequence number. -/
def pad3 (n : Nat) : String :=
  if n < 10 then "00" ++ natStr n
  else if n < 100 then "0" ++ natStr n
  else natStr n

/-- Python `strftime` `%Y`: the year zero-padded to four digits. -/
def pad4 (n : Nat) : String :=
  if n < 10 then "000" ++ natStr n
  else if n < 100 then "00" ++ natStr n
  else if n < 1000 then "0" ++ natStr n
  else natStr n

/-- Numeric value of a digit character. -/
def chVal (c : Char) : Nat := c.toNat - 48

/-- Value of a most-significant-first digit string. -/
def unDigits : List Char → Nat
  | [] => 0
  | c :: rest => chVal c * 10 ^ rest.length + unDigits rest

/-- Value of a string read as decimal digits. -/
def strVal (s : String) : Nat := unDigits s.data

theorem unDigits_append_singleton (xs : List Char) (c : Char) :
    unDigits (xs ++ [c]) = 10 * unDigits xs + chVal c := by
  induction xs with
  | nil => simp [unDigits]
  | cons x xs ih =>
    simp only [List.cons_append, unDigits, ih, List.append_eq, List.length_append,
      List.length_cons, List.length_nil]
    ring

theorem chVal_digitChar (d : Nat) (h : d < 10) : chVal (digitChar d) = d := by
  interval_cases d <;> rfl

theorem unDigits_natToChars (fuel : Nat) :
    ∀ n, n ≤ fuel → unDigits (natToChars fuel n) = n := by
  induction fuel with
  | zero =>
    intro n hn
    interval_cases n
    rfl
  | succ fuel ih =>
    intro n hn
    match n with
    | 0 => rfl
    | m + 1 =>
      have hdiv : (m + 1) / 10 ≤ fuel := by
        have h1 : (m + 1) / 10 < m + 1 := Nat.div_lt_self (Nat.succ_pos m) (by norm_num)
        omega
      calc unDigits (natToChars (fuel + 1) (m + 1))
          = unDigits (natToChars fuel ((m + 1) / 10) ++ [digitChar ((m + 1) % 10)]) := rfl
        _ = 10 * unDigits (natToChars fuel ((m + 1) / 10)) + chVal (digitChar ((m + 1) % 10)) :=
            unDigits_append_singleton _ _
        _ = 10 * ((m + 1) / 10) + (m + 1) % 10 := by
            rw [ih _ hdiv, chVal_digitChar _ (Nat.mod_lt _ (by norm_num))]
        _ = m + 1 := Nat.div_add_mod (m + 1) 10

theorem strVal_natStr (n : Nat) : strVal (natStr n) = n := by
  by_cases h : n = 0
  · subst h; rfl
  · have : natStr n = ⟨natToChars n n⟩ := by simp [natStr, h]
    rw [this]
    exact unDigits_natToChars n n (Nat.le_refl n)

theorem natStr_injective : Function.Injective natStr := by
  intro a b h
  have := congrArg strVal h
  rwa [strVal_natStr, strVal_natStr] at this

theorem strVal_zero_cons (s : String) : strVal ("0" ++ s) = strVal s := by
  have hdata : ("0" ++ s).data = '0' :: s.data := rfl
  simp only [strVal, hdata, unDigits]
  have : chVal '0' = 0 := rfl
  simp [this]

theorem strVal_pad3 (n : Nat) : strVal (pad3 n) = n := by
  unfold pad3
  split
  · rw [show ("00" : String) ++ natStr n = "0" ++ ("0" ++ natStr n) from rfl,
      strVal_zero_cons, strVal_zero_cons, strVal_natStr]
  · split
    · rw [strVal_zero_cons, strVal_natStr]
    · exact strVal_natStr n

theorem pad3_injective : Function.Injective pad3 := by
  intro a b h
  have := congrArg strVal h
  rwa [strVal_pad3, strVal_pad3] at this

/-- Whether `cs` begins with the pattern `ps`. -/
def listStarts : List Char → List Char → Bool
  | [], _ => true
  | _ :: _, [] => false
  | p :: ps, c :: cs => p == c && listStarts ps cs

/-- Python `s.startswith(pat)`. -/
def strStarts (s pat : String) : Bool := listStarts pat.data s.data

/-- Python `s.endswith(pat)`. -/
def strEnds (s pat : String) : Bool := listStarts pat.data.reverse s.data.reverse

/-- The whitespace characters removed by Python `str.strip()`. -/
def isSpaceChar (c : Char) : Bool :=
  c == ' ' || c == '\t' || c == '\n' || c == '\r'

/-- Python `s.strip()`. -/
def pyStrip (s : String) : String :=
  ⟨((s.data.dropWhile isSpaceChar).reverse.dropWhile isSpaceChar).reverse⟩

/-- Decimal digit test, Python `str.isdigit` on ASCII. -/
def isDigitChar (c : Char) : Bool :=
  48 ≤ c.toNat && c.toNat ≤ 57

/-- Value of an all-digit character list, `none` if empty or non-digit. -/
def digitsVal (s : List Char) : Option Nat :=
  if s.isEmpty then none
  else if s.all isDigitChar then
    some (s.foldl (fun acc c => acc * 10 + chVal c) 0)
  else none

/-- Python `int(s)` on a trimmed token: optional sign then digits,
`none` when the call would raise `ValueError`. -/
def pyInt (s : String) : Option Int :=
  match s.data with
  | '-' :: rest => (digitsVal rest).map (fun n => -(n : Int))
  | '+' :: rest => (digitsVal rest).map (fun n => (n : Int))
  | l => (digitsVal l).map (fun n => (n : Int))

/-- Python slice `s[a:-b]`. -/
def pySlice (s : String) (a b : Nat) : String :=
  ⟨(s.data.drop a).take (s.data.length - a - b)⟩

/-- Python `s.split(",")` (never empty; empty string yields one empty part). -/
def splitCommaAux : List Char → List Char → List String
  | [], acc => [⟨acc.reverse⟩]
  | c :: rest, acc =>
    if c == ',' then ⟨acc.reverse⟩ :: splitCommaAux rest []
    else splitCommaAux rest (c :: acc)

/-- Python `[x.strip() for x in s.split(",") if x.strip()]`. -/
def commaTokens (s : String) : List String :=
  ((splitCommaAux s.data []).map pyStrip).filter (fun x => !x.data.isEmpty)

/-- A UTC calendar date, the part of `datetime.now(timezone.utc)` the
ticket logic inspects. -/
structure Date where
  year : Nat
  month : Nat
  day : Nat
deriving DecidableEq

/-- `now.strftime("%Y%m%d")`. -/
def dateStr (d : Date) : String :=
  pad4 d.year ++ pad2 d.month ++ pad2 d.day

/-- A stored ticket record.  `created_at` is `none` when the stored
timestamp is absent, empty, or fails `datetime.fromisoformat` (all three
are skipped identically by the quota loop). -/
structure TicketRec where
  owner : Int
  channel : Int
  message : String
  created_at : Option Date
deriving DecidableEq

/-- A guild's parsed configuration entry as the commands read it:
each field is `cfg.get(key, default)`. -/
structure Config where
  ticket_channel : Option Int
  ticket_limit : Option Int
  allowed_roles : List Int
  allowed_users : List Int
  ping_roles : List Int
  ping_users : List Int
  ticket_message_id : Option Int
deriving DecidableEq

/-- The freshly-created (or wiped) guild configuration. -/
def Config.empty : Config := ⟨none, none, [], [], [], [], none⟩

/-- A guild member as the permission code sees it. -/
structure Member where
  id : Int
  roles : List Int
  manage_guild : Bool
  administrator : Bool
deriving DecidableEq

/-- Embeds `is_manager(member, cfg)`. -/
def is_manager (m : Member) (cfg : Config) : Bool :=
  if cfg.allowed_users.contains m.id then true
  else if cfg.allowed_roles.any (fun rid => m.roles.contains rid) then true
  else if m.manage_guild || m.administrator then true
  else false

/-- The constant `MAX_TICKET_MESSAGE_LEN`. -/
def MAX_TICKET_MESSAGE_LEN : Nat := 500

/-- Whether one ticket is counted by the quota loop: a parseable
`created_at` in the current year and month, owned by the requester. -/
def countsForMonth (t : TicketRec) (now : Date) (uid : Int) : Bool :=
  match t.created_at with
  | none => false
  | some d => d.year == now.year && d.month == now.month && t.owner == uid

/-- The quota loop of `TicketModal.on_submit` (lines 156-167). -/
def user_count (tickets : List (String × TicketRec)) (now : Date) (uid : Int) : Nat :=
  (tickets.filter (fun p => countsForMonth p.2 now uid)).length

/-- Line 180: `sum(1 for k in tickets.keys() if k.startswith(today))`. -/
def count_today (tickets : List (String × TicketRec)) (today : String) : Nat :=
  (tickets.filter (fun p => strStarts p.1 today)).length

/-- Outcome of `TicketModal.on_submit`: the quota rejection (carrying the
displayed limit), the length rejection, channel-provisioning failure
(record not persisted), or success with the new ticket id and the
persisted guild ticket dict. -/
inductive SubmitResult where
  | quotaRejected (limit : Int)
  | tooLong (maxLen : Nat)
  | channelFail
  | created (tid : String) (tickets : List (String × TicketRec))
deriving DecidableEq

/-- Embeds the state-relevant body of `TicketModal.on_submit`.  `chan`
is the external channel provisioning result: `none` when
`create_text_channel` raises, otherwise the new channel id. -/
def on_submit (cfg : Config) (tickets : List (String × TicketRec)) (now : Date)
    (uid : Int) (issue : String) (chan : Option Int) : SubmitResult :=
  let cnt := user_count tickets now uid
  let limit := cfg.ticket_limit.getD 5
  if (cnt : Int) ≥ limit then .quotaRejected limit
  else
    let content := pyStrip issue
    if content.data.length > MAX_TICKET_MESSAGE_LEN then .tooLong MAX_TICKET_MESSAGE_LEN
    else
      let today := dateStr now
      let n := count_today tickets today
      let tid := today ++ "-" ++ pad3 (n + 1)
      match chan with
      | none => .channelFail
      | some ch => .created tid (dset tickets tid ⟨uid, ch, content, some now⟩)

/-- The lookup loop of `slash_close` (lines 479-482): first ticket whose
`channel` equals the invoking channel. -/
def find_ticket : List (String × TicketRec) → Int → Option (String × TicketRec)
  | [], _ => none
  | (tid, r) :: rest, ch => if r.channel == ch then some (tid, r) else find_ticket rest ch

/-- Outcome of `slash_close`. -/
inductive CloseResult where
  | notTracked
  | noPermission
  | closed (tid : String)
deriving DecidableEq

/-- Embeds the state-relevant body of `slash_close`: locate the ticket by
channel, authorize (owner or manager), pop the record and persist.
Returns the outcome with the resulting guild ticket dict. -/
def slash_close (cfg : Config) (tickets : List (String × TicketRec))
    (invoker : Member) (chanId : Int) :
    CloseResult × List (String × TicketRec) :=
  match find_ticket tickets chanId with
  | none => (.notTracked, tickets)
  | some (tid, r) =>
    if invoker.id != r.owner && !is_manager invoker cfg then
      (.noPermission, tickets)
    else
      (.closed tid, dpop tickets tid)

/-- Embeds the wipe loop of `wipeticketstatus` (lines 418-424): remove
every record owned by `uid`, returning the remaining dict and the count
removed. -/
def wipe_tickets : List (String × TicketRec) → Int → List (String × TicketRec) × Nat
  | [], _ => ([], 0)
  | (tid, r) :: rest, uid =>
    let res := wipe_tickets rest uid
    if r.owner == uid then (res.1, res.2 + 1)
    else ((tid, r) :: res.1, res.2)

/-- A button choice on the reset confirmation view. -/
inductive Choice where
  | confirm
  | cancel
deriving DecidableEq

/-- An event delivered to a pending `ResetConfirmView`: a button press by
some actor, or expiry of the 30-unit timeout. -/
inductive ViewEvent where
  | press (actor : Int) (c : Choice)
  | timeout
deriving DecidableEq

/-- State of a `ResetConfirmView`: the invoker, the recorded decision
(`self.value`), and whether `stop()` has run (or the wait has expired). -/
structure ResetConfirmView where
  author : Int
  value : Option Bool
  stopped : Bool
deriving DecidableEq

/-- The view as constructed: value unset, not stopped. -/
def ResetConfirmView.init (author : Int) : ResetConfirmView :=
  ⟨author, none, false⟩

/-- One event against the view.  `interaction_check` rejects any actor
other than the author, leaving the state unchanged; `confirm`/`cancel`
record the decision and stop; timeout stops with the value still unset.
A stopped view processes nothing further. -/
def vstep (v : ResetConfirmView) (e : ViewEvent) : ResetConfirmView :=
  if v.stopped then v
  else
    match e with
    | .timeout => { v with stopped := true }
    | .press actor c =>
      if actor != v.author then v
      else
        match c with
        | .confirm => { v with value := some true, stopped := true }
        | .cancel => { v with value := some false, stopped := true }

/-- A whole run of the view: the events arriving while `view.wait()` is
pending, in order. -/
def runView (author : Int) (events : List ViewEvent) : ResetConfirmView :=
  events.foldl vstep (ResetConfirmView.init author)

/-- In-memory state of one guild: its config entry and its ticket dict. -/
structure GuildState where
  config : Config
  tickets : List (String × TicketRec)
deriving DecidableEq

/-- Outcome reported by `slash_reset`. -/
inductive ResetOutcome where
  | notAdmin
  | timedOut
  | cancelled
  | resetDone
deriving DecidableEq

/-- Embeds `slash_reset`: admin gate, run the confirmation view over the
incoming events, then act on `view.value` — `None` reports a timeout and
touches nothing, `False` cancels, `True` clears tickets and config. -/
def slash_reset (invoker : Member) (st : GuildState) (events : List ViewEvent) :
    ResetOutcome × GuildState :=
  if !invoker.administrator then (.notAdmin, st)
  else
    let v := runView invoker.id events
    match v.value with
    | none => (.timedOut, st)
    | some true => (.resetDone, ⟨Config.empty, []⟩)
    | some false => (.cancelled, st)

/-- Result of `parse_mention`. -/
inductive Mention where
  | role (v : Int)
  | user (v : Int)
  | rawId (v : Int)
deriving DecidableEq

/-- Embeds `parse_mention(item)`: empty input is rejected, the token is
stripped, and the three mention encodings are tried in order; a numeric
body that `int()` rejects yields `none`. -/
def parse_mention (item0 : String) : Option Mention :=
  if item0.data.isEmpty then none
  else
    let item := pyStrip item0
    if strStarts item "<@&" && strEnds item ">" then
      (pyInt (pySlice item 3 1)).map .role
    else if strStarts item "<@!" && strEnds item ">" then
      (pyInt (pySlice item 3 1)).map .user
    else if strStarts item "<@" && strEnds item ">" then
      (pyInt (pySlice item 2 1)).map .user
    else if !item.data.isEmpty && item.data.all isDigitChar then
      (pyInt item).map .rawId
    else none

/-- The role/user split performed twice in `slash_setup` (lines 602-623):
roles collect into the first list, users and raw ids into the second. -/
def splitMentions (s : String) : List Int × List Int :=
  (commaTokens s).foldl
    (fun acc tok =>
      match parse_mention tok with
      | some (.role v) => (acc.1 ++ [v], acc.2)
      | some (.user v) => (acc.1, acc.2 ++ [v])
      | some (.rawId v) => (acc.1, acc.2 ++ [v])
      | none => acc)
    ([], [])

/-- Outcome of `slash_setup`. -/
inductive SetupResult where
  | noPermission
  | ok (cfg : Config)
deriving DecidableEq

/-- Embeds the config mutation of `slash_setup`: permission gate, then
set `ticket_channel`, `ticket_limit = max(1, ticket_limit)`, the four
parsed lists, and (when the prompt message was posted) its id.  `msg`
is the external send result. -/
def slash_setup (invoker : Member) (cfg : Config) (ticket_channel : Int)
    (allowed_roles ping_roles : String) (ticket_limit : Int) (msg : Option Int) :
    SetupResult :=
  if !invoker.manage_guild && !invoker.administrator then .noPermission
  else
    let al := splitMentions allowed_roles
    let pi := splitMentions ping_roles
    .ok { cfg with
      ticket_channel := some ticket_channel
      ticket_limit := some (max 1 ticket_limit)
      allowed_roles := al.1
      allowed_users := al.2
      ping_roles := pi.1
      ping_users := pi.2
      ticket_message_id :=
        match msg with
        | some mid => some mid
        | none => cfg.ticket_message_id }

/-- Repeated creation: `n` runs of `TicketModal.on_submit` in one guild,
all with the same requester, message, date and provisioned channel id,
stopping if any run fails.  Returns the allocated ids in order together
with the final ticket dict. -/
def createN (cfg : Config) (now : Date) (uid : Int) (issue : String) (chan : Int) :
    Nat → List (String × TicketRec) → List String × List (String × TicketRec)
  | 0, st => ([], st)
  | n + 1, st =>
    match on_submit cfg st now uid issue (some chan) with
    | .created tid st2 =>
      let res := createN cfg now uid issue chan n st2
      (tid :: res.1, res.2)
    | _ => ([], st)

theorem dget_dset_self {α : Type} (d : List (String × α)) (k : String) (v : α) :
    dget (dset d k v) k = some v := by
  induction d with
  | nil => simp [dset, dget]
  | cons p rest ih =>
    by_cases h : p.1 = k
    · simp [dset, dget, h]
    · simp [dset, dget, h, ih]

theorem dget_dset_ne {α : Type} (d : List (String × α)) (k k' : String) (v : α)
    (h : k' ≠ k) : dget (dset d k v) k' = dget d k' := by
  have h2 : ¬(k = k') := fun e => h e.symm
  induction d with
  | nil => simp [dset, dget, h2]
  | cons p rest ih =>
    by_cases hp : p.1 = k
    · simp [dset, dget, hp, h2]
    · by_cases hp' : p.1 = k'
      · simp [dset, dget, hp, hp', h]
      · simp [dset, dget, hp, hp', ih]

theorem dget_dpop_ne {α : Type} (d : List (String × α)) (k k' : String)
    (h : k' ≠ k) : dget (dpop d k) k' = dget d k' := by
  have h2 : ¬(k = k') := fun e => h e.symm
  induction d with
  | nil => simp [dpop]
  | cons p rest ih =>
    by_cases hp : p.1 = k
    · simp [dpop, dget, hp, h2]
    · by_cases hp' : p.1 = k'
      · simp [dpop, dget, hp, hp', h]
      · simp [dpop, dget, hp, hp', ih]

theorem dget_eq_none_of_not_mem {α : Type} (d : List (String × α)) (k : String)
    (h : k ∉ d.map Prod.fst) : dget d k = none := by
  induction d with
  | nil => rfl
  | cons p rest ih =>
    simp only [List.map_cons, List.mem_cons, not_or] at h
    have h2 : ¬(p.1 = k) := fun e => h.1 e.symm
    simp [dget, h2, ih h.2]

theorem dpop_keys_sublist {α : Type} (d : List (String × α)) (k : String) :
    ((dpop d k).map Prod.fst).Sublist (d.map Prod.fst) := by
  induction d with
  | nil => simp [dpop]
  | cons p rest ih =>
    by_cases hp : p.1 = k
    · simp only [dpop, hp, if_pos rfl, List.map_cons]
      exact (List.sublist_cons_self _ _)
    · simp only [dpop, if_neg hp, List.map_cons]
      exact ih.cons₂ _

theorem dget_dpop_self {α : Type} (d : List (String × α)) (k : String)
    (h : (d.map Prod.fst).Nodup) : dget (dpop d k) k = none := by
  induction d with
  | nil => rfl
  | cons p rest ih =>
    simp only [List.map_cons, List.nodup_cons] at h
    by_cases hp : p.1 = k
    · simp only [dpop, if_pos hp]
      exact dget_eq_none_of_not_mem _ _ (hp ▸ h.1)
    · simp [dpop, dget, hp, ih h.2]

theorem mem_keys_dset {α : Type} (d : List (String × α)) (k : String) (v : α)
    (x : String) : x ∈ (dset d k v).map Prod.fst ↔ x ∈ d.map Prod.fst ∨ x = k := by
  induction d with
  | nil => simp [dset, eq_comm]
  | cons p rest ih =>
    by_cases hp : p.1 = k
    · subst hp
      simp [dset, eq_comm]
      tauto
    · simp only [dset, if_neg hp, List.map_cons, List.mem_cons, ih]
      tauto

theorem nodup_keys_dset {α : Type} (d : List (String × α)) (k : String) (v : α)
    (h : (d.map Prod.fst).Nodup) : ((dset d k v).map Prod.fst).Nodup := by
  induction d with
  | nil => simp [dset]
  | cons p rest ih =>
    simp only [List.map_cons, List.nodup_cons] at h
    by_cases hp : p.1 = k
    · subst hp
      have hd : dset (p :: rest) p.1 v = (p.1, v) :: rest := by
        simp [dset]
      rw [hd]
      simp only [List.map_cons, List.nodup_cons]
      exact h
    · simp only [dset, if_neg hp, List.map_cons, List.nodup_cons, mem_keys_dset]
      exact ⟨by tauto, ih h.2⟩

theorem dset_eq_append {α : Type} (d : List (String × α)) (k : String) (v : α)
    (h : k ∉ d.map Prod.fst) : dset d k v = d ++ [(k, v)] := by
  induction d with
  | nil => rfl
  | cons p rest ih =>
    simp only [List.map_cons, List.mem_cons, not_or] at h
    have h2 : ¬(p.1 = k) := fun e => h.1 e.symm
    simp [dset, h2, ih h.2]

theorem wipe_tickets_sublist (d : List (String × TicketRec)) (uid : Int) :
    ((wipe_tickets d uid).1.map Prod.fst).Sublist (d.map Prod.fst) := by
  induction d with
  | nil => simp [wipe_tickets]
  | cons p rest ih =>
    by_cases hp : p.2.owner = uid
    · simp only [wipe_tickets, hp, beq_self_eq_true, if_pos, List.map_cons]
      exact ih.trans (List.sublist_cons_self _ _)
    · have : (p.2.owner == uid) = false := by simp [hp]
      simp only [wipe_tickets, this, Bool.false_eq_true, if_neg, List.map_cons,
        not_false_eq_true]
      exact ih.cons₂ _

theorem wipe_tickets_owner (d : List (String × TicketRec)) (uid : Int) :
    ∀ p ∈ (wipe_tickets d uid).1, p.2.owner ≠ uid := by
  induction d with
  | nil => simp [wipe_tickets]
  | cons p rest ih =>
    by_cases hp : p.2.owner = uid
    · simp only [wipe_tickets, hp, beq_self_eq_true, if_pos]
      exact ih
    · have hb : (p.2.owner == uid) = false := by simp [hp]
      simp only [wipe_tickets, hb, Bool.false_eq_true, if_neg, List.mem_cons,
        not_false_eq_true]
      rintro q (rfl | hq)
      · exact hp
      · exact ih q hq

theorem string_append_left_cancel (s a b : String) (h : s ++ a = s ++ b) : a = b := by
  have hd := congrArg String.data h
  simp only [String.data_append] at hd
  exact congrArg String.mk (List.append_cancel_left hd)

theorem mkId_inj (today : String) (a b : Nat)
    (h : today ++ "-" ++ pad3 a = today ++ "-" ++ pad3 b) : a = b :=
  pad3_injective (string_append_left_cancel (today ++ "-") _ _ h)

theorem listStarts_append (p t : List Char) : listStarts p (p ++ t) = true := by
  induction p with
  | nil => rfl
  | cons c cs ih => simp [listStarts, ih]

theorem strStarts_of_append (p t : String) : strStarts (p ++ t) p = true := by
  simp only [strStarts, String.data_append]
  exact listStarts_append _ _

theorem count_today_eq_zero (st : List (String × TicketRec)) (today : String)
    (h : ∀ p ∈ st, strStarts p.1 today = false) : count_today st today = 0 := by
  simp only [count_today, List.length_eq_zero]
  exact List.filter_eq_nil_iff.mpr (by simpa using h)

theorem on_submit_quotaRejected_iff (cfg : Config) (tickets : List (String × TicketRec))
    (now : Date) (uid : Int) (issue : String) (chan : Option Int) (l : Int) :
    on_submit cfg tickets now uid issue chan = .quotaRejected l
      ↔ l = cfg.ticket_limit.getD 5
        ∧ (cfg.ticket_limit.getD 5 : Int) ≤ (user_count tickets now uid : Int) := by
  simp only [on_submit]
  by_cases h : (user_count tickets now uid : Int) ≥ (cfg.ticket_limit.getD 5 : Int)
  · rw [if_pos h]
    simp only [SubmitResult.quotaRejected.injEq]
    constructor
    · intro he
      exact ⟨he.symm, h⟩
    · intro he
      exact he.1.symm
  · rw [if_neg h]
    constructor
    · intro he
      exfalso
      split at he
      · exact SubmitResult.noConfusion he
      · split at he <;> exact SubmitResult.noConfusion he
    · intro he
      exact absurd he.2 h

theorem on_submit_created_spec (cfg : Config) (tickets : List (String × TicketRec))
    (now : Date) (uid : Int) (issue : String) (chan : Option Int)
    (tid : String) (st2 : List (String × TicketRec))
    (h : on_submit cfg tickets now uid issue chan = .created tid st2) :
    tid = dateStr now ++ "-" ++ pad3 (count_today tickets (dateStr now) + 1)
    ∧ (user_count tickets now uid : Int) < (cfg.ticket_limit.getD 5 : Int)
    ∧ ∃ ch, chan = some ch
        ∧ st2 = dset tickets tid ⟨uid, ch, pyStrip issue, some now⟩ := by
  simp only [on_submit] at h
  by_cases hq : (user_count tickets now uid : Int) ≥ (cfg.ticket_limit.getD 5 : Int)
  · rw [if_pos hq] at h
    exact SubmitResult.noConfusion h
  · rw [if_neg hq] at h
    split at h
    · exact SubmitResult.noConfusion h
    · cases hc : chan with
      | none =>
        rw [hc] at h
        exact SubmitResult.noConfusion h
      | some ch =>
        rw [hc] at h
        injection h with h1 h2
        refine ⟨h1.symm, lt_of_not_ge hq, ch, rfl, ?_⟩
        rw [← h1, ← h2]

theorem vstep_author (v : ResetConfirmView) (e : ViewEvent) :
    (vstep v e).author = v.author := by
  unfold vstep
  split
  · rfl
  · cases e with
    | timeout => rfl
    | press a c =>
      dsimp only
      split
      · rfl
      · cases c <;> rfl

theorem vstep_press_other (v : ResetConfirmView) (a : Int) (c : Choice)
    (h : a ≠ v.author) : vstep v (.press a c) = v := by
  unfold vstep
  split
  · rfl
  · dsimp only
    rw [if_pos (by simpa using h)]

theorem vstep_value_none (v : ResetConfirmView) (e : ViewEvent) (author : Int)
    (hv : v.value = none) (ha : v.author = author)
    (he : ∀ a c, e = ViewEvent.press a c → a ≠ author) :
    (vstep v e).value = none := by
  cases e with
  | timeout =>
    unfold vstep
    split
    · exact hv
    · exact hv
  | press a c =>
    rw [vstep_press_other v a c (fun hcontra => he a c rfl (hcontra.trans ha))]
    exact hv

theorem runView_value_none_aux (author : Int) (events : List ViewEvent) :
    ∀ v : ResetConfirmView, v.author = author → v.value = none →
    (∀ a c, ViewEvent.press a c ∈ events → a ≠ author) →
    (events.foldl vstep v).value = none := by
  induction events with
  | nil =>
    intro v _ hv _
    exact hv
  | cons e rest ih =>
    intro v ha hv h
    simp only [List.foldl_cons]
    refine ih (vstep v e) (by rw [vstep_author, ha]) ?_ ?_
    · exact vstep_value_none v e author hv ha
        (fun a c hec => h a c (hec ▸ List.mem_cons_self e rest))
    · intro a c hm
      exact h a c (List.mem_cons_of_mem _ hm)

theorem find_ticket_eq_none (tickets : List (String × TicketRec)) (ch : Int)
    (h : ∀ p ∈ tickets, p.2.channel ≠ ch) : find_ticket tickets ch = none := by
  induction tickets with
  | nil => rfl
  | cons p rest ih =>
    have hb : (p.2.channel == ch) = false := by
      simp [h p (List.mem_cons_self _ _)]
    simp [find_ticket, hb, ih (fun q hq => h q (List.mem_cons_of_mem _ hq))]

theorem get_tickets_parsed_obj (d : List (String × Json)) (g : String) (x : Json)
    (hx : x.isObj = true) (hd : dget d g = some x) :
    (get_tickets_file (.parsed (.obj d)) g).1 = x := by
  simp [get_tickets_file, safe_load, hd, hx]

theorem string_data_ext (a b : String) (h : a.data = b.data) : a = b :=
  congrArg String.mk h

theorem strAppend_assoc (a b c : String) : a ++ b ++ c = a ++ (b ++ c) :=
  string_data_ext _ _ (by simp [String.data_append, List.append_assoc])

theorem strStarts_mkId (today : String) (n : Nat) :
    strStarts (today ++ "-" ++ pad3 n) today = true := by
  rw [strAppend_assoc]
  exact strStarts_of_append today ("-" ++ pad3 n)

theorem on_submit_success (cfg : Config) (tickets : List (String × TicketRec))
    (now : Date) (uid : Int) (issue : String) (ch : Int)
    (hq : (user_count tickets now uid : Int) < cfg.ticket_limit.getD 5)
    (hlen : (pyStrip issue).data.length ≤ MAX_TICKET_MESSAGE_LEN) :
    on_submit cfg tickets now uid issue (some ch)
      = .created
          (dateStr now ++ "-" ++ pad3 (count_today tickets (dateStr now) + 1))
          (dset tickets
            (dateStr now ++ "-" ++ pad3 (count_today tickets (dateStr now) + 1))
            ⟨uid, ch, pyStrip issue, some now⟩) := by
  simp only [on_submit]
  rw [if_neg (not_le.mpr hq), if_neg (not_lt.mpr hlen)]

theorem user_count_append_counted (st : List (String × TicketRec)) (now : Date)
    (uid : Int) (tid : String) (ch : Int) (msg : String) :
    user_count (st ++ [(tid, ⟨uid, ch, msg, some now⟩)]) now uid
      = user_count st now uid + 1 := by
  simp [user_count, List.filter_append, countsForMonth]

theorem createN_ids (cfg : Config) (now : Date) (uid : Int) (issue : String)
    (chan : Int) (hlen : (pyStrip issue).data.length ≤ MAX_TICKET_MESSAGE_LEN) :
    ∀ (N j : Nat) (st : List (String × TicketRec)),
      ((j : Int) + (N : Int)) ≤ cfg.ticket_limit.getD 5 →
      user_count st now uid = j →
      (st.filter (fun p => strStarts p.1 (dateStr now))).map Prod.fst
        = (List.range' 1 j).map (fun i => dateStr now ++ "-" ++ pad3 i) →
      (createN cfg now uid issue chan N st).1
        = (List.range' (j + 1) N).map (fun i => dateStr now ++ "-" ++ pad3 i)
      ∧ ((st.map Prod.fst).Nodup →
          ((createN cfg now uid issue chan N st).2.map Prod.fst).Nodup) := by
  intro N
  induction N with
  | zero =>
    intro j st _ _ _
    exact ⟨rfl, fun h => h⟩
  | succ N ih =>
    intro j st hquota hcount hkeys
    have hct : count_today st (dateStr now) = j := by
      have hlenk := congrArg List.length hkeys
      simpa [count_today] using hlenk
    have hq : (user_count st now uid : Int) < cfg.ticket_limit.getD 5 := by
      rw [hcount]
      push_cast at hquota
      omega
    have hsub := on_submit_success cfg st now uid issue chan hq hlen
    rw [hct] at hsub
    have hfresh : (dateStr now ++ "-" ++ pad3 (j + 1)) ∉ st.map Prod.fst := by
      intro hmem
      rcases List.mem_map.mp hmem with ⟨p, hp, hpk⟩
      have hstart : strStarts p.1 (dateStr now) = true := by
        rw [hpk]
        exact strStarts_mkId _ _
      have hpin : p.1 ∈ (st.filter
          (fun q => strStarts q.1 (dateStr now))).map Prod.fst :=
        List.mem_map_of_mem _ (List.mem_filter.mpr ⟨hp, hstart⟩)
      rw [hkeys, hpk] at hpin
      rcases List.mem_map.mp hpin with ⟨i, hi, hieq⟩
      have hij : i = j + 1 := mkId_inj (dateStr now) i (j + 1) hieq
      rw [List.mem_range'_1] at hi
      omega
    rw [dset_eq_append st _ _ hfresh] at hsub
    have hstep :
        createN cfg now uid issue chan (N + 1) st
          = ((dateStr now ++ "-" ++ pad3 (j + 1)) ::
              (createN cfg now uid issue chan N
                (st ++ [(dateStr now ++ "-" ++ pad3 (j + 1),
                  ⟨uid, chan, pyStrip issue, some now⟩)])).1,
             (createN cfg now uid issue chan N
                (st ++ [(dateStr now ++ "-" ++ pad3 (j + 1),
                  ⟨uid, chan, pyStrip issue, some now⟩)])).2) := by
      simp only [createN, hsub]
    have hquota2 : (((j + 1 : Nat) : Int) + (N : Int)) ≤ cfg.ticket_limit.getD 5 := by
      push_cast at hquota ⊢
      omega
    have hcount2 : user_count (st ++ [(dateStr now ++ "-" ++ pad3 (j + 1),
        ⟨uid, chan, pyStrip issue, some now⟩)]) now uid = j + 1 := by
      rw [user_count_append_counted, hcount]
    have hkeys2 :
        ((st ++ [(dateStr now ++ "-" ++ pad3 (j + 1),
            (⟨uid, chan, pyStrip issue, some now⟩ : TicketRec))]).filter
            (fun p => strStarts p.1 (dateStr now))).map Prod.fst
          = (List.range' 1 (j + 1)).map (fun i => dateStr now ++ "-" ++ pad3 i) := by
      rw [List.filter_append, List.map_append, hkeys]
      have hrange : List.range' 1 (j + 1) = List.range' 1 j ++ [1 + j] :=
        List.range'_1_concat 1 j
      rw [hrange, List.map_append]
      congr 1
      simp [strStarts_mkId, Nat.add_comm 1 j]
    rcases ih (j + 1) _ hquota2 hcount2 hkeys2 with ⟨hids, hnod⟩
    constructor
    · rw [hstep]
      dsimp only
      rw [hids]
      have hr : List.range' (j + 1) (N + 1) = (j + 1) :: List.range' (j + 2) N := by
        simpa using List.range'_succ (j + 1) N 1
      rw [hr, List.map_cons]
    · intro hn
      rw [hstep]
      dsimp only
      refine hnod ?_
      rw [List.map_append]
      simp only [List.map_cons, List.map_nil]
      refine List.Nodup.append hn (List.nodup_singleton _) ?_
      intro x hx hy
      simp only [List.mem_singleton] at hy
      subst hy
      exact hfresh hx

/-- C2: a ticket-creation request by user `uid` in a guild is rejected with
the quota message showing the configured limit (`ticket_limit`, default 5)
exactly when the number of the guild's tickets owned by `uid` whose
`created_at` lies in the current UTC calendar year and month is at least
that limit; and tickets from any other month never count, so a user whose
tickets all lie outside the current month has a month-count of zero. -/
theorem monthly_quota_enforcement (cfg : Config) (tickets : List (String × TicketRec))
    (now : Date) (uid : Int) (issue : String) (chan : Option Int) :
    (on_submit cfg tickets now uid issue chan
        = .quotaRejected (cfg.ticket_limit.getD 5)
      ↔ (cfg.ticket_limit.getD 5 : Int) ≤ (user_count tickets now uid : Int))
    ∧ ((∀ p ∈ tickets, ∀ d, p.2.created_at = some d →
          ¬(d.year = now.year ∧ d.month = now.month)) →
        user_count tickets now uid = 0) := by
  constructor
  · rw [on_submit_quotaRejected_iff]
    simp
  · intro h
    simp only [user_count, List.length_eq_zero]
    refine List.filter_eq_nil_iff.mpr ?_
    intro p hp
    simp only [countsForMonth]
    cases hca : p.2.created_at with
    | none => simp
    | some d =>
      have hd := h p hp d hca
      simp only [Bool.and_eq_true, beq_iff_eq, not_and]
      intro h1 h2
      exact hd h1

/-- Witness for C2 at a concrete input: with the default limit 5 and five
tickets owned by user 1 in October 2026, a sixth request on 2026-10-12 is
rejected with the limit shown. -/
theorem monthly_quota_enforcement_witness :
    on_submit Config.empty
      [("20261001-001", ⟨1, 100, "a", some ⟨2026, 10, 1⟩⟩),
       ("20261002-001", ⟨1, 101, "b", some ⟨2026, 10, 2⟩⟩),
       ("20261003-001", ⟨1, 102, "c", some ⟨2026, 10, 3⟩⟩),
       ("20261004-001", ⟨1, 103, "d", some ⟨2026, 10, 4⟩⟩),
       ("20261005-001", ⟨1, 104, "e", some ⟨2026, 10, 5⟩⟩)]
      ⟨2026, 10, 12⟩ 1 "f" (some 105) = .quotaRejected 5 :=
  ((monthly_quota_enforcement Config.empty
      [("20261001-001", ⟨1, 100, "a", some ⟨2026, 10, 1⟩⟩),
       ("20261002-001", ⟨1, 101, "b", some ⟨2026, 10, 2⟩⟩),
       ("20261003-001", ⟨1, 102, "c", some ⟨2026, 10, 3⟩⟩),
       ("20261004-001", ⟨1, 103, "d", some ⟨2026, 10, 4⟩⟩),
       ("20261005-001", ⟨1, 104, "e", some ⟨2026, 10, 5⟩⟩)]
      ⟨2026, 10, 12⟩ 1 "f" (some 105)).1).mpr (by decide)

/-- C4 counterexample: when the config file parses to a JSON list, the
claimed never-raising `get` on the config collection does raise (the
`.get` attribute access fails), instead of treating the file as empty. -/
theorem store_get_wrong_type_counterexample :
    (get_config_file (.parsed (.arr [])) "1").1
      = .error "AttributeError: .get on non-dict" := rfl

/-- C4 (amended): `get` on the tickets collection always returns an object
and never raises, whatever the backing file holds; `get` on the config
collection treats a missing or unparseable file as an empty mapping and
returns the guild entry (default empty) whenever the file parses to a
mapping, but when the file parses to a non-mapping top-level value it
raises instead of treating the content as empty. -/
theorem store_get_malformed_tolerance (f : FileContent) (g : String) :
    (get_tickets_file f g).1.isObj = true
    ∧ (get_config_file .missing g).1 = .ok (.obj [])
    ∧ (get_config_file .unparseable g).1 = .ok (.obj [])
    ∧ (∀ d, f = .parsed (.obj d) →
        (get_config_file f g).1 = .ok ((dget d g).getD (.obj [])))
    ∧ (∀ j, f = .parsed j → j.isObj = false →
        (get_config_file f g).1 = .error "AttributeError: .get on non-dict") := by
  refine ⟨?_, rfl, rfl, ?_, ?_⟩
  · cases f with
    | missing => rfl
    | unparseable => rfl
    | parsed j =>
      rcases j with _ | b | n | s | elems | d
      · rfl
      · rfl
      · rfl
      · rfl
      · rfl
      · simp only [get_tickets_file, safe_load]
        cases hd : dget d g with
        | none => simp [Json.isObj]
        | some v =>
          rcases v with _ | b2 | n2 | s2 | e2 | d2 <;> simp [hd, Json.isObj]
  · intro d hf
    subst hf
    rfl
  · intro j hf hj
    subst hf
    rcases j with _ | b | n | s | elems | d
    · rfl
    · rfl
    · rfl
    · rfl
    · rfl
    · simp [Json.isObj] at hj

/-- Witness for C4 (amended) at a concrete input: a tickets file holding a
JSON list still yields an object, while the config accessor raises on it. -/
theorem store_get_malformed_tolerance_witness :
    (get_tickets_file (.parsed (.arr [])) "1").1.isObj = true
    ∧ (get_config_file (.parsed (.arr [])) "1").1
        = .error "AttributeError: .get on non-dict" :=
  ⟨(store_get_malformed_tolerance (.parsed (.arr [])) "1").1,
   (store_get_malformed_tolerance (.parsed (.arr [])) "1").2.2.2.2 (.arr []) rfl rfl⟩

/-- C7: a successful `set_config` rewrites only the named guild's entry of
the config collection — every other guild's entry is unchanged and the
tickets file is untouched — and `save_tickets` likewise preserves every
other guild's tickets entry and leaves the config file entirely
unchanged. -/
theorem per_guild_write_isolation (s : Store) (g g' : String) (v : Json) :
    (∀ s2, Store.set_config s g v = .ok s2 → g' ≠ g →
        s2.configFile.entry g' = s.configFile.entry g'
        ∧ s2.ticketsFile = s.ticketsFile)
    ∧ (g' ≠ g →
        (Store.save_tickets s g v).ticketsFile.entry g'
          = s.ticketsFile.entry g')
    ∧ (Store.save_tickets s g v).configFile = s.configFile := by
  refine ⟨?_, ?_, rfl⟩
  · intro s2 hok hne
    have hne2 : ¬(g = g') := fun e => hne e.symm
    unfold Store.set_config at hok
    cases hcf : set_config_file s.configFile g v with
    | error e =>
      rw [hcf] at hok
      exact Except.noConfusion hok
    | ok f2 =>
      rw [hcf] at hok
      injection hok with hok
      subst hok
      refine ⟨?_, rfl⟩
      cases hf : s.configFile with
      | missing =>
        rw [hf] at hcf
        simp only [set_config_file, safe_load, safe_save] at hcf
        injection hcf with hcf
        rw [← hcf]
        simp [FileContent.entry, dget_dset_ne _ _ _ _ hne, dget, hne2]
      | unparseable =>
        rw [hf] at hcf
        simp only [set_config_file, safe_load, safe_save] at hcf
        injection hcf with hcf
        rw [← hcf]
        simp [FileContent.entry, dget_dset_ne _ _ _ _ hne, dget, hne2]
      | parsed j =>
        rw [hf] at hcf
        rcases j with _ | b | n | str0 | elems | d
        · exact Except.noConfusion hcf
        · exact Except.noConfusion hcf
        · exact Except.noConfusion hcf
        · exact Except.noConfusion hcf
        · exact Except.noConfusion hcf
        · simp only [set_config_file, safe_load, safe_save] at hcf
          injection hcf with hcf
          rw [← hcf]
          simp [FileContent.entry, dget_dset_ne _ _ _ _ hne]
  · intro hne
    have hne2 : ¬(g = g') := fun e => hne e.symm
    unfold Store.save_tickets save_tickets_file
    cases s.ticketsFile with
    | missing =>
      simp [safe_load, safe_save, FileContent.entry, dget_dset_ne _ _ _ _ hne, dget, hne2]
    | unparseable =>
      simp [safe_load, safe_save, FileContent.entry, dget_dset_ne _ _ _ _ hne, dget, hne2]
    | parsed j =>
      rcases j with _ | b | n | str0 | elems | d
      · simp [safe_load, safe_save, FileContent.entry, dget_dset_ne _ _ _ _ hne, dget, hne2]
      · simp [safe_load, safe_save, FileContent.entry, dget_dset_ne _ _ _ _ hne, dget, hne2]
      · simp [safe_load, safe_save, FileContent.entry, dget_dset_ne _ _ _ _ hne, dget, hne2]
      · simp [safe_load, safe_save, FileContent.entry, dget_dset_ne _ _ _ _ hne, dget, hne2]
      · simp [safe_load, safe_save, FileContent.entry, dget_dset_ne _ _ _ _ hne, dget, hne2]
      · simp [safe_load, safe_save, FileContent.entry, dget_dset_ne _ _ _ _ hne]

/-- Witness for C7 at a concrete input: writing guild 1 leaves guild 2's
entries and the sibling collection intact in both collections. -/
theorem per_guild_write_isolation_witness :
    (∀ s2, Store.set_config
        ⟨.parsed (.obj [("2", .num 7)]), .parsed (.obj [("2", .num 8)])⟩
        "1" (.obj []) = .ok s2 →
        s2.configFile.entry "2"
          = (FileContent.parsed (.obj [("2", .num 7)])).entry "2"
        ∧ s2.ticketsFile = .parsed (.obj [("2", .num 8)]))
    ∧ (Store.save_tickets
        ⟨.parsed (.obj [("2", .num 7)]), .parsed (.obj [("2", .num 8)])⟩
        "1" (.obj [])).ticketsFile.entry "2"
        = (FileContent.parsed (.obj [("2", .num 8)])).entry "2" :=
  ⟨fun s2 hok =>
    (per_guild_write_isolation
      ⟨.parsed (.obj [("2", .num 7)]), .parsed (.obj [("2", .num 8)])⟩
      "1" "2" (.obj [])).1 s2 hok (by decide),
   (per_guild_write_isolation
      ⟨.parsed (.obj [("2", .num 7)]), .parsed (.obj [("2", .num 8)])⟩
      "1" "2" (.obj [])).2.1 (by decide)⟩

/-- C8: for any mapping value `x`, a successful `set_config` for guild `g`
followed by `get_config` for `g` returns exactly `x`, and `save_tickets`
followed by `get_tickets` likewise returns exactly `x`. -/
theorem store_round_trip (s : Store) (g : String) (x : Json)
    (hx : x.isObj = true) :
    (∀ s2, Store.set_config s g x = .ok s2 →
        (get_config_file s2.configFile g).1 = .ok x)
    ∧ (get_tickets_file (Store.save_tickets s g x).ticketsFile g).1 = x := by
  constructor
  · intro s2 hok
    unfold Store.set_config at hok
    cases hcf : set_config_file s.configFile g x with
    | error e =>
      rw [hcf] at hok
      exact Except.noConfusion hok
    | ok f2 =>
      rw [hcf] at hok
      injection hok with hok
      subst hok
      cases hf : s.configFile with
      | missing =>
        rw [hf] at hcf
        simp only [set_config_file, safe_load, safe_save] at hcf
        injection hcf with hcf
        rw [← hcf]
        simp [get_config_file, safe_load, dget_dset_self]
      | unparseable =>
        rw [hf] at hcf
        simp only [set_config_file, safe_load, safe_save] at hcf
        injection hcf with hcf
        rw [← hcf]
        simp [get_config_file, safe_load, dget_dset_self]
      | parsed j =>
        rw [hf] at hcf
        rcases j with _ | b | n | str0 | elems | d
        · exact Except.noConfusion hcf
        · exact Except.noConfusion hcf
        · exact Except.noConfusion hcf
        · exact Except.noConfusion hcf
        · exact Except.noConfusion hcf
        · simp only [set_config_file, safe_load, safe_save] at hcf
          injection hcf with hcf
          rw [← hcf]
          simp [get_config_file, safe_load, dget_dset_self]
  · unfold Store.save_tickets save_tickets_file
    cases s.ticketsFile with
    | missing =>
      exact get_tickets_parsed_obj _ _ _ hx (dget_dset_self _ _ _)
    | unparseable =>
      exact get_tickets_parsed_obj _ _ _ hx (dget_dset_self _ _ _)
    | parsed j =>
      rcases j with _ | b | n | str0 | elems | d
      · exact get_tickets_parsed_obj _ _ _ hx (dget_dset_self _ _ _)
      · exact get_tickets_parsed_obj _ _ _ hx (dget_dset_self _ _ _)
      · exact get_tickets_parsed_obj _ _ _ hx (dget_dset_self _ _ _)
      · exact get_tickets_parsed_obj _ _ _ hx (dget_dset_self _ _ _)
      · exact get_tickets_parsed_obj _ _ _ hx (dget_dset_self _ _ _)
      · exact get_tickets_parsed_obj _ _ _ hx (dget_dset_self _ _ _)

/-- C9 counterexample: a setup call supplying `ticket_limit = 0` is not
rejected — it succeeds, and it silently stores the altered value 1 instead
of making no state change. -/
theorem setup_nonpositive_limit_counterexample :
    slash_setup ⟨7, [], true, false⟩ Config.empty 42 "" "" 0 (some 99)
      = .ok { Config.empty with
              ticket_channel := some 42
              ticket_limit := some 1
              ticket_message_id := some 99 } := by decide

/-- C9 (amended): a setup invocation supplying a zero or negative
`ticket_limit` is not treated as a validation error: whenever the call
passes the permission gate it succeeds, silently storing the clamped value
1, so the persisted limit stays a positive integer. -/
theorem setup_nonpositive_limit_clamped (inv : Member) (cfg : Config)
    (tc : Int) (ar pr : String) (tl : Int) (msg : Option Int) (cfg2 : Config)
    (hnp : tl ≤ 0)
    (hok : slash_setup inv cfg tc ar pr tl msg = .ok cfg2) :
    cfg2.ticket_limit = some 1 := by
  unfold slash_setup at hok
  split at hok
  · exact SetupResult.noConfusion hok
  · injection hok with hok
    subst hok
    show some (max 1 tl) = some 1
    rw [max_eq_left (by omega)]

/-- Witness for C9 (amended) at a concrete input. -/
theorem setup_nonpositive_limit_clamped_witness :
    ({ Config.empty with
        ticket_channel := some 42
        ticket_limit := some 1
        ticket_message_id := some 99 } : Config).ticket_limit = some 1 :=
  setup_nonpositive_limit_clamped ⟨7, [], true, false⟩ Config.empty 42 "" "" 0
    (some 99)
    { Config.empty with
        ticket_channel := some 42
        ticket_limit := some 1
        ticket_message_id := some 99 }
    (by decide) (by decide)

/-- C10: every successful setup stores `ticket_limit` as
`max(1, supplied)`, hence always at least 1; a non-positive supplied value
is stored as exactly 1; and the limit the quota check uses under such a
config is at least 1 — any quota rejection it issues shows a limit ≥ 1. -/
theorem setup_limit_clamping (inv : Member) (cfg : Config) (tc : Int)
    (ar pr : String) (tl : Int) (msg : Option Int) (cfg2 : Config)
    (hok : slash_setup inv cfg tc ar pr tl msg = .ok cfg2) :
    cfg2.ticket_limit = some (max 1 tl)
    ∧ (1 : Int) ≤ cfg2.ticket_limit.getD 5
    ∧ (tl ≤ 0 → cfg2.ticket_limit = some 1)
    ∧ (∀ tickets now uid issue chan l,
        on_submit cfg2 tickets now uid issue chan = .quotaRejected l →
        (1 : Int) ≤ l) := by
  unfold slash_setup at hok
  split at hok
  · exact SetupResult.noConfusion hok
  · injection hok with hok
    subst hok
    refine ⟨rfl, ?_, ?_, ?_⟩
    · show (1 : Int) ≤ max 1 tl
      exact le_max_left 1 tl
    · intro h
      show some (max 1 tl) = some 1
      rw [max_eq_left (by omega)]
    · intro tickets now uid issue chan l hq
      have hl := ((on_submit_quotaRejected_iff _ _ _ _ _ _ _).mp hq).1
      rw [hl]
      exact le_max_left 1 tl

/-- Witness for C10 at a concrete input. -/
theorem setup_limit_clamping_witness :
    ({ Config.empty with
        ticket_channel := some 42
        ticket_limit := some 1
        ticket_message_id := some 99 } : Config).ticket_limit = some (max 1 0) :=
  (setup_limit_clamping ⟨7, [], true, false⟩ Config.empty 42 "" "" 0 (some 99)
    { Config.empty with
        ticket_channel := some 42
        ticket_limit := some 1
        ticket_message_id := some 99 }
    (by decide)).1

/-- C5: when neither Confirm nor Cancel arrives from the original invoker
before the timeout, the destructive reset is never invoked — the guild
state is returned untouched and the command reports a timeout; and a press
by any actor other than the invoker is rejected, leaving the view's state,
including the unset decision value, unchanged. -/
theorem reset_confirmation_safety (inv : Member) (st : GuildState)
    (events : List ViewEvent) (v : ResetConfirmView) (a : Int) (c : Choice) :
    (inv.administrator = true →
      (∀ a' c', ViewEvent.press a' c' ∈ events → a' ≠ inv.id) →
      slash_reset inv st events = (.timedOut, st))
    ∧ (a ≠ v.author → vstep v (.press a c) = v) := by
  constructor
  · intro hadm hpress
    unfold slash_reset
    rw [if_neg (by simp [hadm])]
    have hval : (runView inv.id events).value = none := by
      unfold runView
      exact runView_value_none_aux inv.id events _ rfl rfl hpress
    simp only [hval]
  · intro ha
    exact vstep_press_other v a c ha

/-- Witness for C5 at a concrete input: a stranger's press followed by the
timeout reports `timedOut` with the state intact, and a stranger's press on
a fresh view is a no-op. -/
theorem reset_confirmation_safety_witness :
    slash_reset ⟨7, [], false, true⟩ ⟨Config.empty, []⟩
        [ViewEvent.press 9 .confirm, ViewEvent.timeout]
      = (.timedOut, ⟨Config.empty, []⟩)
    ∧ vstep ⟨7, none, false⟩ (.press 9 .cancel) = ⟨7, none, false⟩ :=
  ⟨(reset_confirmation_safety ⟨7, [], false, true⟩ ⟨Config.empty, []⟩
      [ViewEvent.press 9 .confirm, ViewEvent.timeout] ⟨7, none, false⟩ 9
      .cancel).1 rfl
      (by
        intro a' c' hm
        simp only [List.mem_cons, List.not_mem_nil, or_false] at hm
        rcases hm with h1 | h1
        · injection h1 with h2 h3
          subst h2
          decide
        · exact ViewEvent.noConfusion h1),
   (reset_confirmation_safety ⟨7, [], false, true⟩ ⟨Config.empty, []⟩
      [ViewEvent.press 9 .confirm, ViewEvent.timeout] ⟨7, none, false⟩ 9
      .cancel).2 (by decide)⟩

/-- C6: invoking close in a channel that no guild ticket references fails
as "not a tracked ticket" with the ticket store unchanged; invoking it in a
channel matching a tracked ticket, as the ticket's owner or a manager,
removes exactly that ticket's record — the located key is gone and every
other key still maps to its previous record. -/
theorem close_exact_removal (cfg : Config) (tickets : List (String × TicketRec))
    (inv : Member) (chanId : Int) :
    ((∀ p ∈ tickets, p.2.channel ≠ chanId) →
      slash_close cfg tickets inv chanId = (.notTracked, tickets))
    ∧ (∀ tid r, find_ticket tickets chanId = some (tid, r) →
        (inv.id = r.owner ∨ is_manager inv cfg = true) →
        (tickets.map Prod.fst).Nodup →
        slash_close cfg tickets inv chanId = (.closed tid, dpop tickets tid)
        ∧ dget (dpop tickets tid) tid = none
        ∧ ∀ k, k ≠ tid → dget (dpop tickets tid) k = dget tickets k) := by
  constructor
  · intro h
    unfold slash_close
    rw [find_ticket_eq_none tickets chanId h]
  · intro tid r hf hperm hnod
    have hcond : (inv.id != r.owner && !is_manager inv cfg) = false := by
      rcases hperm with h1 | h1
      · simp [h1]
      · simp [h1]
    refine ⟨?_, dget_dpop_self tickets tid hnod,
      fun k hk => dget_dpop_ne _ _ _ hk⟩
    unfold slash_close
    rw [hf]
    simp [hcond]

/-- Witness for C6 at a concrete input: closing channel 100 removes only
ticket `t1`, and closing untracked channel 999 changes nothing. -/
theorem close_exact_removal_witness :
    slash_close Config.empty
        [("t1", ⟨1, 100, "a", none⟩), ("t2", ⟨2, 200, "b", none⟩)]
        ⟨1, [], false, false⟩ 100
      = (.closed "t1", [("t2", ⟨2, 200, "b", none⟩)])
    ∧ slash_close Config.empty [("t1", ⟨1, 100, "a", none⟩)]
        ⟨1, [], false, false⟩ 999
      = (.notTracked, [("t1", ⟨1, 100, "a", none⟩)]) :=
  ⟨((close_exact_removal Config.empty
      [("t1", ⟨1, 100, "a", none⟩), ("t2", ⟨2, 200, "b", none⟩)]
      ⟨1, [], false, false⟩ 100).2 "t1" ⟨1, 100, "a", none⟩ (by decide)
      (Or.inl rfl) (by decide)).1.trans (by decide),
   (close_exact_removal Config.empty [("t1", ⟨1, 100, "a", none⟩)]
      ⟨1, [], false, false⟩ 999).1 (by decide)⟩

/-- C1 counterexample: with a deletion interleaved (create, close, create,
all on 2026-10-12), the second creation is numbered 20261012-001 again
instead of 20261012-002, so the run's ids are not 001, 002 and contain a
duplicate — contradicting "regardless of deletions interleaved between
creations". -/
theorem ticket_id_dup_counterexample :
    on_submit Config.empty [] ⟨2026, 10, 12⟩ 1 "help" (some 100)
      = .created "20261012-001"
          [("20261012-001", ⟨1, 100, "help", some ⟨2026, 10, 12⟩⟩)]
    ∧ slash_close Config.empty
        [("20261012-001", ⟨1, 100, "help", some ⟨2026, 10, 12⟩⟩)]
        ⟨1, [], false, false⟩ 100
      = (.closed "20261012-001", [])
    ∧ on_submit Config.empty [] ⟨2026, 10, 12⟩ 1 "help" (some 101)
      = .created "20261012-001"
          [("20261012-001", ⟨1, 101, "help", some ⟨2026, 10, 12⟩⟩)]
    ∧ "20261012-001" ≠ "20261012-002" := by decide

/-- C1 (amended): a newly created ticket's id is the current UTC date as
YYYYMMDD, a dash, and the 3-digit zero-padded (count of existing keys with
that day prefix) + 1; creation, close and owner wipe all preserve
duplicate-freedom of a guild's ticket keys; and creating N tickets in one
guild on one calendar day — starting from a store with no same-day keys
and no same-month tickets of the requester, with N within the quota —
yields exactly the ids YYYYMMDD-001 … YYYYMMDD-NNN, pairwise distinct,
provided no deletions are interleaved between the creations (with an
interleaved deletion the day count drops and an id is reissued; see the
counterexample). -/
theorem ticket_id_allocation (cfg : Config) (now : Date) (uid : Int)
    (issue : String) (chan : Int) (N : Nat) (st : List (String × TicketRec))
    (k : String) (u : Int) :
    (∀ tid st2, on_submit cfg st now uid issue (some chan) = .created tid st2 →
        tid = dateStr now ++ "-" ++ pad3 (count_today st (dateStr now) + 1)
        ∧ ((st.map Prod.fst).Nodup → (st2.map Prod.fst).Nodup))
    ∧ ((st.map Prod.fst).Nodup →
        ((dpop st k).map Prod.fst).Nodup
        ∧ ((wipe_tickets st u).1.map Prod.fst).Nodup)
    ∧ ((∀ p ∈ st, strStarts p.1 (dateStr now) = false) →
        user_count st now uid = 0 →
        (N : Int) ≤ cfg.ticket_limit.getD 5 →
        (pyStrip issue).data.length ≤ MAX_TICKET_MESSAGE_LEN →
        (createN cfg now uid issue chan N st).1
            = (List.range' 1 N).map (fun i => dateStr now ++ "-" ++ pad3 i)
        ∧ (createN cfg now uid issue chan N st).1.Nodup
        ∧ ((st.map Prod.fst).Nodup →
            ((createN cfg now uid issue chan N st).2.map Prod.fst).Nodup)) := by
  refine ⟨?_, ?_, ?_⟩
  · intro tid st2 h
    have hspec := on_submit_created_spec _ _ _ _ _ _ _ _ h
    refine ⟨hspec.1, ?_⟩
    intro hn
    rcases hspec.2.2 with ⟨ch, _, hst2⟩
    rw [hst2]
    exact nodup_keys_dset _ _ _ hn
  · intro hn
    exact ⟨List.Nodup.sublist (dpop_keys_sublist st k) hn,
      List.Nodup.sublist (wipe_tickets_sublist st u) hn⟩
  · intro hclean hmonth hN hlen
    have hkeys0 : (st.filter (fun p => strStarts p.1 (dateStr now))).map Prod.fst
        = (List.range' 1 0).map (fun i => dateStr now ++ "-" ++ pad3 i) := by
      rw [List.filter_eq_nil_iff.mpr (by simpa using hclean)]
      rfl
    have hquota0 : ((0 : Nat) : Int) + (N : Int) ≤ cfg.ticket_limit.getD 5 := by
      simpa using hN
    rcases createN_ids cfg now uid issue chan hlen N 0 st hquota0 hmonth hkeys0
      with ⟨hids, hnod⟩
    refine ⟨by simpa using hids, ?_, hnod⟩
    rw [show (createN cfg now uid issue chan N st).1
        = (List.range' (0 + 1) N).map (fun i => dateStr now ++ "-" ++ pad3 i)
        from hids]
    exact (List.nodup_range' (0 + 1) N).map
      (fun a b hab => mkId_inj (dateStr now) a b hab)

/-- Witness for C1 (amended) at a concrete input: three creations on
2026-10-12 from an empty store yield ids 001, 002, 003. -/
theorem ticket_id_allocation_witness :
    (createN Config.empty ⟨2026, 10, 12⟩ 1 "help" 100 3 []).1
      = ["20261012-001", "20261012-002", "20261012-003"] :=
  (((ticket_id_allocation Config.empty ⟨2026, 10, 12⟩ 1 "help" 100 3 [] "k" 0).2.2
      (by decide) (by decide) (by decide) (by decide)).1).trans (by decide)

/-- C3 counterexample: after the only same-day ticket 20261012-001 is
removed by an owner wipe, the next creation that day is numbered
20261012-001 again, not 20261012-002 as the claim states. -/
theorem wipe_sequence_counterexample :
    wipe_tickets [("20261012-001", ⟨1, 100, "help", some ⟨2026, 10, 12⟩⟩)] 1
      = ([], 1)
    ∧ on_submit Config.empty [] ⟨2026, 10, 12⟩ 1 "again" (some 101)
        = .created "20261012-001"
            [("20261012-001", ⟨1, 101, "again", some ⟨2026, 10, 12⟩⟩)]
    ∧ "20261012-001" ≠ "20261012-002" := by decide

/-- C3 (amended): the owner wipe removes every ticket owned by the target
user, and when that leaves the guild with no key carrying today's prefix,
the next successful creation that day receives id YYYYMMDD-001 again — the
day sequence restarts after deletion instead of continuing monotonically. -/
theorem wipe_then_create_id (cfg : Config) (now : Date) (u uid : Int)
    (issue : String) (st : List (String × TicketRec)) (tid : String)
    (st2 : List (String × TicketRec)) (chan : Int)
    (hall : ∀ p ∈ (wipe_tickets st u).1, strStarts p.1 (dateStr now) = false)
    (hcr : on_submit cfg (wipe_tickets st u).1 now uid issue (some chan)
        = .created tid st2) :
    (∀ p ∈ (wipe_tickets st u).1, p.2.owner ≠ u)
    ∧ tid = dateStr now ++ "-" ++ pad3 1 := by
  refine ⟨wipe_tickets_owner st u, ?_⟩
  have hspec := on_submit_created_spec _ _ _ _ _ _ _ _ hcr
  rw [hspec.1, count_today_eq_zero _ _ hall]

/-- Witness for C3 (amended) at a concrete input: wiping user 1's only
ticket and creating again the same day yields id 20261012-001. -/
theorem wipe_then_create_id_witness :
    (∀ p ∈ (wipe_tickets
        [("20261012-001", ⟨1, 100, "help", some ⟨2026, 10, 12⟩⟩)] 1).1,
      p.2.owner ≠ 1)
    ∧ "20261012-001" = dateStr ⟨2026, 10, 12⟩ ++ "-" ++ pad3 1 :=
  wipe_then_create_id Config.empty ⟨2026, 10, 12⟩ 1 1 "again"
    [("20261012-001", ⟨1, 100, "help", some ⟨2026, 10, 12⟩⟩)] "20261012-001"
    [("20261012-001", ⟨1, 101, "again", some ⟨2026, 10, 12⟩⟩)] 101
    (by decide) (by decide)

/-- Witness for C8 at a concrete input: guild 1's entry round-trips through
both collections. -/
theorem store_round_trip_witness :
    (∀ s2, Store.set_config ⟨.missing, .missing⟩ "1" (.obj [("k", .num 3)])
        = .ok s2 →
        (get_config_file s2.configFile "1").1 = .ok (.obj [("k", .num 3)]))
    ∧ (get_tickets_file
        (Store.save_tickets ⟨.missing, .missing⟩ "1"
          (.obj [("k", .num 3)])).ticketsFile "1").1 = .obj [("k", .num 3)] :=
  store_round_trip ⟨.missing, .missing⟩ "1" (.obj [("k", .num 3)]) rfl

end TicketBot
